import Mathlib

/-
Verification of the command-line tokenizer and redirection pipeline of the
Shell-Go repository.  The definitions below are a shallow embedding of the
Go sources under pkg/shell (parser.go, redirections.go, executor.go,
shell.go), which is the repository's clean, documented and unit-tested
implementation of the design (the other directories hold earlier
evolutionary copies of the same files).

Conventions of the embedding:
 * strings are processed as their list of characters (Go iterates runes);
 * Go's multiple return values (value, error) become pairs with an
   Option/Except component;
 * the file system is modelled by a World state: a counter of fresh file
   handles together with per-handle open status and a count of how many
   times each handle's underlying descriptor has actually been closed.
   os.File.Close on an already closed file returns an error and does not
   close the descriptor again; fileClose mirrors that.
 * the injectable FileOpener is modelled by a predicate saying which
   target paths fail to open.
-/

namespace ShellGo

/-! ## Tokenizer (pkg/shell/parser.go) -/

/-- Errors of DefaultParser.Parse: ErrUnclosedQuote and ErrUnescapedCharacter. -/
inductive ParseErr where
  | unclosedQuote
  | unescapedCharacter
deriving DecidableEq, Repr

/-- The parseState enumeration of parser.go. -/
inductive ParseState where
  | stateOutside
  | stateSingleQuote
  | stateDoubleQuote
deriving DecidableEq, Repr

/-- The mutable locals of DefaultParser.Parse bundled into one record:
current state, escaping flag, the tokenBuffer contents and the tokens
flushed so far. -/
structure TokenizerState where
  currState : ParseState
  escaping  : Bool
  buf       : List Char
  args      : List String
deriving DecidableEq, Repr

/-- Go's unicode.IsSpace: the Unicode White_Space code points. -/
def unicodeIsSpace (c : Char) : Bool :=
  c.toNat = 0x20 || (0x9 ≤ c.toNat && c.toNat ≤ 0xD) ||
  c.toNat = 0x85 || c.toNat = 0xA0 || c.toNat = 0x1680 ||
  (0x2000 ≤ c.toNat && c.toNat ≤ 0x200A) ||
  c.toNat = 0x2028 || c.toNat = 0x2029 ||
  c.toNat = 0x202F || c.toNat = 0x205F || c.toNat = 0x3000

/-- tokenBuffer.flushIfNotEmpty: append the buffered token to the output
sequence when it is non-empty (the builder reset is the caller clearing
the buffer). -/
def flushIfNotEmpty (buf : List Char) (args : List String) : List String :=
  if buf.isEmpty then args else args ++ [String.mk buf]

/-- handleStateOutside of parser.go. -/
def handleStateOutside (ch : Char) (st : TokenizerState) : TokenizerState :=
  if st.escaping then
    { st with buf := st.buf ++ [ch], escaping := false }
  else if unicodeIsSpace ch then
    { st with buf := [], args := flushIfNotEmpty st.buf st.args }
  else if ch = '\'' then
    { st with currState := .stateSingleQuote }
  else if ch = '"' then
    { st with currState := .stateDoubleQuote }
  else if ch = '\\' then
    { st with escaping := true }
  else
    { st with buf := st.buf ++ [ch] }

/-- handleStateSingleQuote of parser.go. -/
def handleStateSingleQuote (ch : Char) (st : TokenizerState) : TokenizerState :=
  if ch = '\'' then
    { st with currState := .stateOutside }
  else
    { st with buf := st.buf ++ [ch] }

/-- handleStateDoubleQuote of parser.go. -/
def handleStateDoubleQuote (ch : Char) (st : TokenizerState) : TokenizerState :=
  if st.escaping then
    let b := if ch ≠ '\\' ∧ ch ≠ '"' then st.buf ++ ['\\'] else st.buf
    { st with buf := b ++ [ch], escaping := false }
  else if ch = '"' then
    { st with currState := .stateOutside }
  else if ch = '\\' then
    { st with escaping := true }
  else
    { st with buf := st.buf ++ [ch] }

/-- The switch on currState inside the read loop of DefaultParser.Parse. -/
def stepChar (st : TokenizerState) (ch : Char) : TokenizerState :=
  match st.currState with
  | .stateOutside => handleStateOutside ch st
  | .stateSingleQuote => handleStateSingleQuote ch st
  | .stateDoubleQuote => handleStateDoubleQuote ch st

/-- State at entry of DefaultParser.Parse. -/
def initState : TokenizerState :=
  { currState := .stateOutside, escaping := false, buf := [], args := [] }

/-- The rune-reading loop of DefaultParser.Parse. -/
def parseLoop (cs : List Char) (st : TokenizerState) : TokenizerState :=
  cs.foldl stepChar st

/-- DefaultParser.Parse of pkg/shell/parser.go: run the state machine over
the line, then handle end of input. -/
def DefaultParser.Parse (line : String) : Except ParseErr (List String) :=
  let st := parseLoop line.data initState
  if st.currState = .stateSingleQuote ∨ st.currState = .stateDoubleQuote then
    .error .unclosedQuote
  else if st.escaping then
    .error .unescapedCharacter
  else
    .ok (flushIfNotEmpty st.buf st.args)

/-! ## Redirection data model (pkg/shell/redirections.go) -/

/-- RedirectionSpec: operator, target path and position in the argument
list. -/
structure RedirectionSpec where
  Operator : String
  Target   : String
  Index    : Nat
deriving DecidableEq, Repr

/-- ParsedCommand: clean arguments plus redirection specifications. -/
structure ParsedCommand where
  Args         : List String
  Redirections : List RedirectionSpec
deriving DecidableEq, Repr

/-- A stream value held in an IOBindings slot: either one of the base
streams the caller supplied (identified by a number) or an opened
redirection file handle. -/
inductive Stream where
  | base (n : Nat)
  | file (h : Nat)
deriving DecidableEq, Repr

/-- IOBindings of pkg/shell/executor.go: the stdin/stdout/stderr slots. -/
structure IOBindings where
  Stdin  : Stream
  Stdout : Stream
  Stderr : Stream
deriving DecidableEq, Repr

/-- The file-system state: a fresh-handle counter, the open status of each
handle, and how many times each handle's descriptor has actually been
closed. -/
structure World where
  nextHandle : Nat
  isOpen     : Nat → Bool
  closeCount : Nat → Nat

/-- A world is well formed when handles not yet allocated are closed and
have never been closed. -/
def World.WF (w : World) : Prop :=
  ∀ h, w.nextHandle ≤ h → w.isOpen h = false ∧ w.closeCount h = 0

/-- The empty file system. -/
def initialWorld : World :=
  { nextHandle := 0, isOpen := fun _ => false, closeCount := fun _ => 0 }

/-- The flag argument of FileOpener.OpenWrite (os.O_CREATE etc.). -/
structure OpenFlags where
  create : Bool
  wronly : Bool
  trunc  : Bool
  append : Bool
deriving DecidableEq, Repr

/-- FileOpener.OpenWrite.  The injectable opener is modelled by failsOn,
the set of target paths whose open fails; a successful open allocates the
next fresh handle.  The flag and permission arguments do not influence
which handle is produced. -/
def OpenWrite (failsOn : String → Bool) (name : String) (_flag : OpenFlags) (w : World) :
    Except String (Nat × World) :=
  if failsOn name then
    .error ("failed to open " ++ name)
  else
    .ok (w.nextHandle,
      { nextHandle := w.nextHandle + 1,
        isOpen := fun h => if h = w.nextHandle then true else w.isOpen h,
        closeCount := w.closeCount })

/-- file.Close with os.File semantics: closing an open handle closes its
descriptor exactly once; closing an already closed handle reports an error
(discarded by every caller in the source) and does not touch the
descriptor again. -/
def fileClose (h : Nat) (w : World) : World :=
  if w.isOpen h then
    { w with
      isOpen := fun h2 => if h2 = h then false else w.isOpen h2,
      closeCount := fun h2 => if h2 = h then w.closeCount h2 + 1 else w.closeCount h2 }
  else
    w

/-- The aggregate cleanup function of ApplyRedirections: invoke the
collected per-file close actions in order. -/
def runCleanup (hs : List Nat) (w : World) : World :=
  hs.foldl (fun acc h => fileClose h acc) w

/-- The two handler strategies registered by NewRedirectionManager:
StdoutRedirectionHandler and StderrRedirectionHandler, each with its
Overwrite field. -/
inductive RedirectionHandler where
  | stdoutHandler (Overwrite : Bool)
  | stderrHandler (Overwrite : Bool)
deriving DecidableEq, Repr

/-- CanHandle of the two handlers. -/
def RedirectionHandler.CanHandle : RedirectionHandler → String → Bool
  | .stdoutHandler ow, op => if ow then op = ">" || op = "1>" else op = ">>" || op = "1>>"
  | .stderrHandler ow, op => if ow then op = "2>" else op = "2>>"

/-- Validate of the two handlers (identical bodies in the source): fail
with ErrMissingRedirectDestination when the target is empty. -/
def RedirectionHandler.Validate (_handler : RedirectionHandler) (spec : RedirectionSpec) :
    Option String :=
  if spec.Target = "" then some "missing redirect destination" else none

/-- Apply of the two handlers: compute the open flags from the Overwrite
field, open the target, rebind the corresponding slot of the bindings
copy and hand back the handle whose close is the cleanup action. -/
def RedirectionHandler.Apply (handler : RedirectionHandler) (spec : RedirectionSpec)
    (ioBindings : IOBindings) (failsOn : String → Bool) (w : World) :
    Except String (IOBindings × Nat × World) :=
  match handler with
  | .stdoutHandler ow =>
    match OpenWrite failsOn spec.Target ⟨true, true, ow, !ow⟩ w with
    | .error e => .error e
    | .ok (h, w2) => .ok ({ ioBindings with Stdout := .file h }, h, w2)
  | .stderrHandler ow =>
    match OpenWrite failsOn spec.Target ⟨true, true, ow, !ow⟩ w with
    | .error e => .error e
    | .ok (h, w2) => .ok ({ ioBindings with Stderr := .file h }, h, w2)

/-- The registries of RedirectionManager. -/
structure RedirectionManager where
  handlers : List RedirectionHandler
  knownOps : List String

/-- RegisterHandler appends to the handler registry. -/
def RegisterHandler (m : RedirectionManager) (h : RedirectionHandler) : RedirectionManager :=
  { m with handlers := m.handlers ++ [h] }

/-- RegisterKnownOperator appends to the operator registry. -/
def RegisterKnownOperator (m : RedirectionManager) (op : String) : RedirectionManager :=
  { m with knownOps := m.knownOps ++ [op] }

/-- NewRedirectionManager: the registration sequence of the source. -/
def NewRedirectionManager : RedirectionManager :=
  let m : RedirectionManager := { handlers := [], knownOps := [] }
  let m := RegisterHandler m (.stdoutHandler true)
  let m := RegisterKnownOperator m ">"
  let m := RegisterKnownOperator m "1>"
  let m := RegisterHandler m (.stdoutHandler false)
  let m := RegisterKnownOperator m ">>"
  let m := RegisterKnownOperator m "1>>"
  let m := RegisterHandler m (.stderrHandler true)
  let m := RegisterKnownOperator m "2>"
  let m := RegisterHandler m (.stderrHandler false)
  let m := RegisterKnownOperator m "2>>"
  m

/-- GetHandler: first registered handler that can handle the operator. -/
def GetHandler (m : RedirectionManager) (op : String) : Except String RedirectionHandler :=
  match m.handlers.find? (fun h => h.CanHandle op) with
  | some h => .ok h
  | none => .error ("unsupported redirection operator: " ++ op)

/-- ValidateSpecs: fail-fast validation of every spec before any file is
opened. -/
def ValidateSpecs (m : RedirectionManager) : List RedirectionSpec → Option String
  | [] => none
  | spec :: rest =>
    match GetHandler m spec.Operator with
    | .error e => some e
    | .ok handler =>
      match handler.Validate spec with
      | some e =>
        some ("invalid redirection " ++ spec.Operator ++ " " ++ spec.Target ++ ": " ++ e)
      | none => ValidateSpecs m rest

/-- The application loop of ApplyRedirections: apply each spec in order
against the bindings copy, collecting the close actions; on an open
failure run the collected close actions and return the untouched base
bindings with the error.  (The discarded GetHandler error in the loop is
unreachable once ValidateSpecs has passed; the error branch mirrors it
conservatively.) -/
def ApplyLoop (m : RedirectionManager) (failsOn : String → Bool) (baseBindings : IOBindings) :
    List RedirectionSpec → IOBindings → List Nat → World →
    (IOBindings × Option (List Nat) × Option String) × World
  | [], bindings, cleanupFuncs, w => ((bindings, some cleanupFuncs, none), w)
  | spec :: rest, bindings, cleanupFuncs, w =>
    match GetHandler m spec.Operator with
    | .error e => ((baseBindings, none, some e), runCleanup cleanupFuncs w)
    | .ok handler =>
      match handler.Apply spec bindings failsOn w with
      | .error e => ((baseBindings, none, some e), runCleanup cleanupFuncs w)
      | .ok (b2, h, w2) => ApplyLoop m failsOn baseBindings rest b2 (cleanupFuncs ++ [h]) w2

/-- ApplyRedirections of pkg/shell/redirections.go: validate every spec,
then apply them in order against a copy of the base bindings, returning
the rebound bindings, the aggregate cleanup (the ordered list of handles
to close) and the error slot. -/
def ApplyRedirections (m : RedirectionManager) (failsOn : String → Bool)
    (specs : List RedirectionSpec) (baseBindings : IOBindings) (w : World) :
    (IOBindings × Option (List Nat) × Option String) × World :=
  match ValidateSpecs m specs with
  | some e => ((baseBindings, none, some e), w)
  | none =>
    ApplyLoop m failsOn baseBindings specs
      { Stdin := baseBindings.Stdin, Stdout := baseBindings.Stdout, Stderr := baseBindings.Stderr }
      [] w

/-! ## Redirection resolver (ArgumentParser, pkg/shell/redirections.go) -/

/-- The error of ArgumentParser.Parse: missing target for a redirection
operator, carrying the operator and its position. -/
structure MissingTarget where
  operator : String
  position : Nat
deriving DecidableEq, Repr

/-- The operator set of an ArgumentParser (a set of strings in the
source; membership is what the code consults). -/
structure ArgumentParser where
  operators : List String

/-- NewArgumentParser: take the known operators from the manager. -/
def NewArgumentParser (m : RedirectionManager) : ArgumentParser :=
  { operators := m.knownOps }

/-- The cursor loop of ArgumentParser.Parse, carried over the remaining
tokens, the cursor position and the ParsedCommand built so far.  On a
dangling operator Go returns the partially built ParsedCommand together
with the error; the pair mirrors the (ParsedCommand, error) return. -/
def ArgumentParser.ParseAux (p : ArgumentParser) :
    List String → Nat → ParsedCommand → ParsedCommand × Option MissingTarget
  | [], _, parsedCommand => (parsedCommand, none)
  | arg :: rest, i, parsedCommand =>
    if p.operators.contains arg then
      match rest with
      | [] => (parsedCommand, some { operator := arg, position := i })
      | target :: rest2 =>
        ArgumentParser.ParseAux p rest2 (i + 2)
          { parsedCommand with
            Redirections := parsedCommand.Redirections ++
              [{ Operator := arg, Target := target, Index := i }] }
    else
      ArgumentParser.ParseAux p rest (i + 1)
        { parsedCommand with Args := parsedCommand.Args ++ [arg] }

/-- ArgumentParser.Parse of pkg/shell/redirections.go. -/
def ArgumentParser.Parse (p : ArgumentParser) (args : List String) :
    ParsedCommand × Option MissingTarget :=
  ArgumentParser.ParseAux p args 0 { Args := [], Redirections := [] }

/-- The argument parser wired up by shell.New: it takes its operator set
from NewRedirectionManager. -/
def shellArgumentParser : ArgumentParser := NewArgumentParser NewRedirectionManager

/-! ## External command executor (pkg/shell/executor.go) -/

/-- Outcome of externalCmd.Run(): success, an *exec.ExitError carrying the
process exit code, or any other failure to run the program. -/
inductive RunOutcome where
  | success
  | exited (code : Int)
  | failedToRun
deriving DecidableEq, Repr

/-- The only error value the executor distinguishes: ErrNotFound. -/
inductive ExecError where
  | notFound
deriving DecidableEq, Repr

/-- DefaultExecutor.Execute: look the name up; on failure return
(-1, ErrNotFound).  Otherwise run the program: an ExitError yields its
exit code with a nil error, any other run failure yields -1 with a nil
error, and success yields 0 with a nil error.  lookupFunc models the
injected LookupFunc and run the behaviour of the spawned process. -/
def DefaultExecutor.Execute (lookupFunc : String → Option String)
    (run : String → RunOutcome) (name : String) : Int × Option ExecError :=
  match lookupFunc name with
  | none => (-1, some .notFound)
  | some path =>
    match run path with
    | .exited code => (code, none)
    | .failedToRun => (-1, none)
    | .success => (0, none)

/-! ## One iteration of the REPL (pkg/shell/shell.go, Run) -/

/-- Names registered by registerBuiltins. -/
def builtinNames : List String := ["echo", "exit", "type", "pwd", "cd"]

/-- The observable outcome of one pass through the body of Run:
 * fatal: the tokenizer failed and the error escapes the loop;
 * blank: the trimmed line was empty, no work done;
 * crash: the token list was empty, parsedArgs[0] is out of range;
 * step: one command was processed — the messages written to the error
   stream at loop level, the command dispatched (name and final argument
   list) if any, and whether exit was requested. -/
inductive IterOutcome where
  | fatal (e : ParseErr)
  | blank
  | crash
  | step (errMessages : List String) (executed : Option (String × List String))
      (exitRequested : Bool)
deriving DecidableEq, Repr

/-- strings.TrimSpace: drop Unicode white space from both ends. -/
def trimSpace (cs : List Char) : List Char :=
  ((cs.dropWhile unicodeIsSpace).reverse.dropWhile unicodeIsSpace).reverse

/-- The body of Shell.Run for one input line, translated statement by
statement.  The error returned by shell.argumentParser.Parse at
shell.go:284 is assigned to err and then overwritten by the
ApplyRedirections call at shell.go:293 without ever being inspected; the
embedding mirrors this by discarding the second component of the pair. -/
def processLine (failsOn : String → Bool) (lookupFunc : String → Option String)
    (run : String → RunOutcome) (line : String) (w : World) : IterOutcome × World :=
  let m := NewRedirectionManager
  let argumentParser := NewArgumentParser m
  let trimmed := String.mk (trimSpace line.data)
  if trimmed = "" then (.blank, w)
  else
    match DefaultParser.Parse trimmed with
    | .error e => (.fatal e, w)
    | .ok parsedArgs =>
      match parsedArgs with
      | [] => (.crash, w)
      | command :: args =>
        let pr := argumentParser.Parse args
        let parsedCommand := pr.1
        let baseBindings : IOBindings := { Stdin := .base 0, Stdout := .base 1, Stderr := .base 2 }
        match ApplyRedirections m failsOn parsedCommand.Redirections baseBindings w with
        | ((_, _, some e), w2) => (.step ["redirection error: " ++ e] none false, w2)
        | ((_ioBindings, cleanup, none), w2) =>
          if builtinNames.contains command then
            if command = "exit" then
              (.step [] (some (command, parsedCommand.Args)) true,
                runCleanup (cleanup.getD []) w2)
            else
              (.step [] (some (command, parsedCommand.Args)) false,
                runCleanup (cleanup.getD []) w2)
          else
            match DefaultExecutor.Execute lookupFunc run command with
            | (_, some .notFound) =>
              (.step [command ++ ": command not found"] none false, w2)
            | (_, none) =>
              (.step [] (some (command, parsedCommand.Args)) false,
                runCleanup (cleanup.getD []) w2)

/-! ## Sanity checks: the spec's concrete test vectors -/

theorem parse_simple_command : DefaultParser.Parse "echo hello" = .ok ["echo", "hello"] := by
  rfl

theorem parse_escaped_quotes :
    DefaultParser.Parse "echo \"say \\\"hi\\\"\"" = .ok ["echo", "say \"hi\""] := by
  rfl

theorem parse_escaped_space :
    DefaultParser.Parse "echo hello\\ world" = .ok ["echo", "hello world"] := by
  rfl

theorem resolve_example :
    shellArgumentParser.Parse ["a", "b", ">", "out.txt"] =
      ({ Args := ["a", "b"],
         Redirections := [{ Operator := ">", Target := "out.txt", Index := 2 }] }, none) := by
  rfl

theorem resolve_missing_target_example :
    shellArgumentParser.Parse ["a", ">"] =
      ({ Args := ["a"], Redirections := [] }, some { operator := ">", position := 1 }) := by
  rfl

/-! ## Helper lemmas about the resolver -/

/-- Unfolding: a known operator with a following token is consumed as a
redirection request (operator, following token, position) and the cursor
advances by two. -/
theorem ParseAux_op_cons (p : ArgumentParser) (op target : String) (rest : List String)
    (i : Nat) (acc : ParsedCommand) (hop : op ∈ p.operators) :
    p.ParseAux (op :: target :: rest) i acc =
      p.ParseAux rest (i + 2)
        { acc with Redirections := acc.Redirections ++
            [{ Operator := op, Target := target, Index := i }] } := by
  rw [ArgumentParser.ParseAux.eq_def]
  simp [hop]

/-- Unfolding: a known operator with no following token fails with the
operator and its position, returning the command parsed so far. -/
theorem ParseAux_op_last (p : ArgumentParser) (op : String) (i : Nat) (acc : ParsedCommand)
    (hop : op ∈ p.operators) :
    p.ParseAux [op] i acc = (acc, some { operator := op, position := i }) := by
  rw [ArgumentParser.ParseAux.eq_def]
  simp [hop]

/-- Unfolding: any token that is not a known operator is appended to the
arguments and the cursor advances by one. -/
theorem ParseAux_nonop (p : ArgumentParser) (a : String) (rest : List String)
    (i : Nat) (acc : ParsedCommand) (ha : a ∉ p.operators) :
    p.ParseAux (a :: rest) i acc =
      p.ParseAux rest (i + 1) { acc with Args := acc.Args ++ [a] } := by
  rw [ArgumentParser.ParseAux.eq_def]
  simp [ha]

/-! ## Claim theorems: resolver -/

/-- C6: the resolver scans tokens left to right with a cursor; the known
operator set is exactly the six stdout/stderr operators; a known operator
consumes the following token as its target and advances the cursor by two,
failing with MissingRedirectTarget carrying the operator and its position
when no following token exists; every other token, including the
unrecognized operator forms, is appended to the arguments with the cursor
advancing by one; operators may appear at any position. -/
theorem resolver_scan_behavior :
    shellArgumentParser.operators = [">", "1>", ">>", "1>>", "2>", "2>>"] ∧
    ("<" ∉ shellArgumentParser.operators ∧ "2>&1" ∉ shellArgumentParser.operators ∧
      "&>" ∉ shellArgumentParser.operators) ∧
    (∀ op target rest i acc, op ∈ shellArgumentParser.operators →
      shellArgumentParser.ParseAux (op :: target :: rest) i acc =
        shellArgumentParser.ParseAux rest (i + 2)
          { acc with Redirections := acc.Redirections ++
              [{ Operator := op, Target := target, Index := i }] }) ∧
    (∀ op i acc, op ∈ shellArgumentParser.operators →
      shellArgumentParser.ParseAux [op] i acc =
        (acc, some { operator := op, position := i })) ∧
    (∀ a rest i acc, a ∉ shellArgumentParser.operators →
      shellArgumentParser.ParseAux (a :: rest) i acc =
        shellArgumentParser.ParseAux rest (i + 1) { acc with Args := acc.Args ++ [a] }) := by
  refine ⟨by rfl, by refine ⟨by decide, by decide, by decide⟩, ?_, ?_, ?_⟩
  · intro op target rest i acc hop
    exact ParseAux_op_cons _ op target rest i acc hop
  · intro op i acc hop
    exact ParseAux_op_last _ op i acc hop
  · intro a rest i acc ha
    exact ParseAux_nonop _ a rest i acc ha

/-- Witness for C6: the operator step at a concrete input. -/
theorem resolver_scan_behavior_witness :
    shellArgumentParser.ParseAux ["2>", "err.log"] 0 { Args := [], Redirections := [] } =
      shellArgumentParser.ParseAux [] 2
        { Args := [], Redirections := [{ Operator := "2>", Target := "err.log", Index := 0 }] } := by
  have h := resolver_scan_behavior.2.2.1 "2>" "err.log" [] 0
    { Args := [], Redirections := [] } (by decide)
  simpa using h

/-- C10 (implicit): the tokenizer strips quotes before redirection
resolution, so a quoted operator (single- or double-quoted) reaches the
resolver as the bare operator token and is consumed as a redirection
operator taking the next token as target, never kept as a literal
argument. -/
theorem quoted_operator_resolved_as_operator :
    DefaultParser.Parse "echo '>' out.txt" = .ok ["echo", ">", "out.txt"] ∧
    DefaultParser.Parse "echo \">\" out.txt" = .ok ["echo", ">", "out.txt"] ∧
    shellArgumentParser.Parse [">", "out.txt"] =
      ({ Args := [], Redirections := [{ Operator := ">", Target := "out.txt", Index := 0 }] },
        none) ∧
    (∀ tok, tok ∈ shellArgumentParser.operators → ∀ target rest i acc,
      shellArgumentParser.ParseAux (tok :: target :: rest) i acc =
        shellArgumentParser.ParseAux rest (i + 2)
          { acc with Redirections := acc.Redirections ++
              [{ Operator := tok, Target := target, Index := i }] }) := by
  refine ⟨by rfl, by rfl, by rfl, ?_⟩
  intro tok htok target rest i acc
  exact ParseAux_op_cons _ tok target rest i acc htok

/-- Witness for C10: the quoted-operator step at a concrete input. -/
theorem quoted_operator_resolved_as_operator_witness :
    shellArgumentParser.ParseAux ["1>", "log.txt"] 3
        { Args := ["a"], Redirections := [] } =
      shellArgumentParser.ParseAux [] 5
        { Args := ["a"], Redirections := [{ Operator := "1>", Target := "log.txt", Index := 3 }] } := by
  have h := quoted_operator_resolved_as_operator.2.2.2 "1>" (by decide) "log.txt" [] 3
    { Args := ["a"], Redirections := [] }
  simpa using h

/-! ## Claim theorems: tokenizer transition for escapes in double quotes -/

/-- C4: inside double quotes with the escaping flag set, a quote or
backslash is appended alone with the flag cleared; any other character is
appended together with a preserved literal backslash, also clearing the
flag; the state stays InDoubleQuote. -/
theorem doubleQuote_escape_transition (st : TokenizerState) (ch : Char)
    (hst : st.currState = .stateDoubleQuote) (hesc : st.escaping = true) :
    ((ch = '"' ∨ ch = '\\') →
      handleStateDoubleQuote ch st = { st with buf := st.buf ++ [ch], escaping := false }) ∧
    (¬(ch = '"' ∨ ch = '\\') →
      handleStateDoubleQuote ch st =
        { st with buf := st.buf ++ ['\\', ch], escaping := false }) ∧
    (handleStateDoubleQuote ch st).currState = .stateDoubleQuote := by
  refine ⟨?_, ?_, ?_⟩
  · rintro (rfl | rfl) <;> simp [handleStateDoubleQuote, hesc]
  · intro h
    push_neg at h
    simp [handleStateDoubleQuote, hesc, h.1, h.2]
  · simp [handleStateDoubleQuote, hesc, hst]

/-- Witness for C4: a non-escape character after a backslash inside double
quotes keeps the backslash. -/
theorem doubleQuote_escape_transition_witness :
    handleStateDoubleQuote 'x'
        { currState := .stateDoubleQuote, escaping := true, buf := ['a'], args := [] } =
      { currState := .stateDoubleQuote, escaping := false, buf := ['a', '\\', 'x'],
        args := [] } := by
  have h := (doubleQuote_escape_transition
    { currState := .stateDoubleQuote, escaping := true, buf := ['a'], args := [] } 'x'
    rfl rfl).2.1 (by decide)
  simpa using h

/-! ## Claim theorems: executor -/

/-- C9 (amended): the executor returns the distinguished not-found error
exactly when lookup fails; in every other case the error component is nil
(so not-found remains distinguishable by the error value), with exit
status 0 on success, the process exit code on an ExitError, and -1 on any
other failure to run the program. -/
theorem executor_error_discipline :
    ∀ lookupFunc run name,
      (lookupFunc name = none →
        DefaultExecutor.Execute lookupFunc run name = (-1, some .notFound)) ∧
      (∀ path, lookupFunc name = some path →
        (DefaultExecutor.Execute lookupFunc run name).2 = none ∧
        (run path = .success → DefaultExecutor.Execute lookupFunc run name = (0, none)) ∧
        (∀ code, run path = .exited code →
          DefaultExecutor.Execute lookupFunc run name = (code, none)) ∧
        (run path = .failedToRun → DefaultExecutor.Execute lookupFunc run name = (-1, none))) := by
  intro lookupFunc run name
  constructor
  · intro h
    simp [DefaultExecutor.Execute, h]
  · intro path hp
    refine ⟨?_, ?_, ?_, ?_⟩
    · simp only [DefaultExecutor.Execute, hp]
      cases run path <;> rfl
    · intro hr
      simp [DefaultExecutor.Execute, hp, hr]
    · intro code hr
      simp [DefaultExecutor.Execute, hp, hr]
    · intro hr
      simp [DefaultExecutor.Execute, hp, hr]

/-- Witness for C9's amended theorem: a failing lookup at a concrete
input. -/
theorem executor_error_discipline_witness :
    DefaultExecutor.Execute (fun _ => none) (fun _ => .success) "nosuch" =
      (-1, some .notFound) :=
  (executor_error_discipline (fun _ => none) (fun _ => .success) "nosuch").1 rfl

/-- Counterexample to C9 as stated: when the program is found but fails to
run for a reason other than an ExitError, the executor returns no error at
all (error component nil), not an error value distinguishable from
not-found. -/
theorem executor_other_failure_returns_no_error :
    DefaultExecutor.Execute (fun _ => some "/bin/tool") (fun _ => .failedToRun) "tool" =
      (-1, none) := by
  rfl

/-! ## Claim theorems: the REPL and the dangling-operator error -/

/-- C1 (the code at the failing input): for the line `echo hello >` the
resolver reports a missing redirect target, but Run overwrites that error
without inspecting it; no message reaches the error stream, the command
is not abandoned, and echo executes with the arguments parsed before the
dangling operator. -/
theorem missingTarget_error_dropped_by_repl :
    (shellArgumentParser.Parse ["hello", ">"]).2 =
      some { operator := ">", position := 1 } ∧
    processLine (fun _ => false) (fun _ => none) (fun _ => .success)
        "echo hello >" initialWorld =
      (.step [] (some ("echo", ["hello"])) false, initialWorld) := by
  exact ⟨by rfl, by rfl⟩

/-! ## Helper lemmas about the tokenizer -/

/-- Every token flushIfNotEmpty adds is non-empty. -/
theorem flush_preserves_nonempty (buf : List Char) (args : List String)
    (h : ∀ t ∈ args, t ≠ "") : ∀ t ∈ flushIfNotEmpty buf args, t ≠ "" := by
  intro t ht
  unfold flushIfNotEmpty at ht
  split at ht
  · exact h t ht
  · rename_i hb
    rcases List.mem_append.1 ht with h1 | h2
    · exact h t h1
    · simp only [List.mem_singleton] at h2
      subst h2
      intro hc
      apply hb
      have := congrArg String.data hc
      simp only [String.mk] at this
      simp [List.isEmpty_iff, this]

/-- One tokenizer step leaves the recorded tokens alone or flushes the
buffer. -/
theorem stepChar_args (st : TokenizerState) (ch : Char) :
    (stepChar st ch).args = st.args ∨
    (stepChar st ch).args = flushIfNotEmpty st.buf st.args := by
  obtain ⟨cs, esc, buf, args⟩ := st
  cases cs <;>
    unfold stepChar handleStateOutside handleStateSingleQuote handleStateDoubleQuote <;>
    dsimp only [] <;>
    repeat' split
  all_goals first | exact Or.inl rfl | exact Or.inr rfl

/-- One tokenizer step never records an empty token. -/
theorem stepChar_preserves_nonempty (st : TokenizerState) (ch : Char)
    (h : ∀ t ∈ st.args, t ≠ "") : ∀ t ∈ (stepChar st ch).args, t ≠ "" := by
  rcases stepChar_args st ch with ha | ha <;> rw [ha]
  · exact h
  · exact flush_preserves_nonempty st.buf st.args h

/-- The tokenizer loop never records an empty token. -/
theorem parseLoop_preserves_nonempty (cs : List Char) (st : TokenizerState)
    (h : ∀ t ∈ st.args, t ≠ "") : ∀ t ∈ (parseLoop cs st).args, t ≠ "" := by
  induction cs generalizing st with
  | nil => exact h
  | cons c rest ih =>
    have h2 := stepChar_preserves_nonempty st c h
    simpa [parseLoop, List.foldl_cons] using ih (stepChar st c) h2

/-! ## Claim theorems: tokenizer end of input and token shape -/

/-- C5: tokenize fails with UnclosedQuote exactly when end of input is
reached in the single- or double-quote state; failing that, it fails with
UnescapedTrailingBackslash exactly when the escaping flag is still set;
otherwise it flushes the non-empty pending token and returns the token
sequence.  Concrete instances for each error first. -/
theorem tokenize_end_of_input_behavior :
    DefaultParser.Parse "echo 'hello" = .error .unclosedQuote ∧
    DefaultParser.Parse "echo \"hello" = .error .unclosedQuote ∧
    DefaultParser.Parse "echo hello\\" = .error .unescapedCharacter ∧
    ∀ line,
      (DefaultParser.Parse line = .error .unclosedQuote ↔
        ((parseLoop line.data initState).currState = .stateSingleQuote ∨
          (parseLoop line.data initState).currState = .stateDoubleQuote)) ∧
      (DefaultParser.Parse line = .error .unescapedCharacter ↔
        (¬((parseLoop line.data initState).currState = .stateSingleQuote ∨
            (parseLoop line.data initState).currState = .stateDoubleQuote) ∧
          (parseLoop line.data initState).escaping = true)) ∧
      (¬((parseLoop line.data initState).currState = .stateSingleQuote ∨
          (parseLoop line.data initState).currState = .stateDoubleQuote) →
        (parseLoop line.data initState).escaping = false →
        DefaultParser.Parse line =
          .ok (flushIfNotEmpty (parseLoop line.data initState).buf
                (parseLoop line.data initState).args)) := by
  refine ⟨by rfl, by rfl, by rfl, ?_⟩
  intro line
  by_cases hq : (parseLoop line.data initState).currState = .stateSingleQuote ∨
      (parseLoop line.data initState).currState = .stateDoubleQuote
  · refine ⟨by simp [DefaultParser.Parse, hq], by simp [DefaultParser.Parse, hq], ?_⟩
    intro hc
    exact absurd hq hc
  · by_cases he : (parseLoop line.data initState).escaping = true
    · exact ⟨by simp [DefaultParser.Parse, hq, he], by simp [DefaultParser.Parse, hq, he],
        fun _ he2 => by rw [he2] at he; cases he⟩
    · refine ⟨by simp [DefaultParser.Parse, hq, he], by simp [DefaultParser.Parse, hq, he], ?_⟩
      intro _ _
      simp [DefaultParser.Parse, hq, he]

/-- Witness for C5: the no-error clause applied to a concrete line. -/
theorem tokenize_end_of_input_behavior_witness :
    DefaultParser.Parse "pwd" = .ok ["pwd"] := by
  have h := (tokenize_end_of_input_behavior.2.2.2 "pwd").2.2 (by decide) (by decide)
  exact h.trans (by rfl)

/-- C8: empty quoted pairs contribute nothing and force no token boundary;
adjacent quoted segments concatenate into one token; and no input ever
produces an empty token (in particular repeated whitespace yields no empty
tokens). -/
theorem empty_quotes_and_concatenation :
    DefaultParser.Parse "echo \"\" ''" = .ok ["echo"] ∧
    DefaultParser.Parse "\"hello\"'world'" = .ok ["helloworld"] ∧
    DefaultParser.Parse "echo    hello     world" = .ok ["echo", "hello", "world"] ∧
    ∀ line ts, DefaultParser.Parse line = .ok ts → "" ∉ ts := by
  refine ⟨by rfl, by rfl, by rfl, ?_⟩
  intro line ts hok
  have hts : ts = flushIfNotEmpty (parseLoop line.data initState).buf
      (parseLoop line.data initState).args := by
    by_cases hq : (parseLoop line.data initState).currState = .stateSingleQuote ∨
        (parseLoop line.data initState).currState = .stateDoubleQuote
    · simp [DefaultParser.Parse, hq] at hok
    · by_cases he : (parseLoop line.data initState).escaping = true
      · simp [DefaultParser.Parse, hq, he] at hok
      · simp [DefaultParser.Parse, hq, he] at hok
        exact hok.symm
  subst hts
  intro hmem
  have hargs : ∀ t ∈ (parseLoop line.data initState).args, t ≠ "" :=
    parseLoop_preserves_nonempty line.data initState (by intro t ht; cases ht)
  exact flush_preserves_nonempty _ _ hargs "" hmem rfl

/-- Witness for C8: the no-empty-token clause at a concrete line with
repeated whitespace. -/
theorem empty_quotes_and_concatenation_witness :
    "" ∉ ["a", "b"] :=
  empty_quotes_and_concatenation.2.2.2 "a   b" ["a", "b"] (by rfl)

/-! ## Helper lemmas about handles and cleanup -/

theorem fileClose_nextHandle (h : Nat) (w : World) :
    (fileClose h w).nextHandle = w.nextHandle := by
  unfold fileClose
  split <;> rfl

theorem fileClose_isOpen_self (h : Nat) (w : World) : (fileClose h w).isOpen h = false := by
  unfold fileClose
  split
  · simp
  · rename_i hcl
    simpa using hcl

theorem fileClose_isOpen_other (a h : Nat) (w : World) (hne : h ≠ a) :
    (fileClose a w).isOpen h = w.isOpen h := by
  unfold fileClose
  split
  · simp [hne]
  · rfl

theorem fileClose_closeCount_other (a h : Nat) (w : World) (hne : h ≠ a) :
    (fileClose a w).closeCount h = w.closeCount h := by
  unfold fileClose
  split
  · simp [hne]
  · rfl

theorem fileClose_closed_noop (h : Nat) (w : World) (hcl : w.isOpen h = false) :
    fileClose h w = w := by
  unfold fileClose
  simp [hcl]

theorem fileClose_closeCount_open (h : Nat) (w : World) (hop : w.isOpen h = true) :
    (fileClose h w).closeCount h = w.closeCount h + 1 := by
  unfold fileClose
  simp [hop]

theorem runCleanup_nil (w : World) : runCleanup [] w = w := rfl

theorem runCleanup_cons (a : Nat) (t : List Nat) (w : World) :
    runCleanup (a :: t) w = runCleanup t (fileClose a w) := rfl

theorem runCleanup_nextHandle (hs : List Nat) (w : World) :
    (runCleanup hs w).nextHandle = w.nextHandle := by
  induction hs generalizing w with
  | nil => rfl
  | cons a t ih =>
    rw [runCleanup_cons, ih (fileClose a w), fileClose_nextHandle]

/-- A handle that is closed stays closed and is not closed again by any
further cleanup. -/
theorem runCleanup_preserves_closed (hs : List Nat) (w : World) (h : Nat)
    (hcl : w.isOpen h = false) :
    (runCleanup hs w).isOpen h = false ∧ (runCleanup hs w).closeCount h = w.closeCount h := by
  induction hs generalizing w with
  | nil => exact ⟨hcl, rfl⟩
  | cons a t ih =>
    rw [runCleanup_cons]
    by_cases hah : h = a
    · subst hah
      rw [fileClose_closed_noop h w hcl]
      exact ih w hcl
    · have h1 : (fileClose a w).isOpen h = false := by
        rw [fileClose_isOpen_other a h w hah]
        exact hcl
      have h2 := ih (fileClose a w) h1
      exact ⟨h2.1, h2.2.trans (fileClose_closeCount_other a h w hah)⟩

/-- Every handle in the cleanup list is closed after the cleanup runs. -/
theorem runCleanup_closes_mem (hs : List Nat) (w : World) (h : Nat) (hm : h ∈ hs) :
    (runCleanup hs w).isOpen h = false := by
  induction hs generalizing w with
  | nil => cases hm
  | cons a t ih =>
    rw [runCleanup_cons]
    by_cases hat : h ∈ t
    · exact ih (fileClose a w) hat
    · have hha : h = a := by
        rcases List.mem_cons.1 hm with h1 | h1
        · exact h1
        · exact absurd h1 hat
      subst hha
      exact (runCleanup_preserves_closed t (fileClose h w) h (fileClose_isOpen_self h w)).1

/-- A handle in the cleanup list that was open gets its descriptor closed
exactly once. -/
theorem runCleanup_closeCount_once (hs : List Nat) (w : World) (h : Nat)
    (hm : h ∈ hs) (hop : w.isOpen h = true) :
    (runCleanup hs w).closeCount h = w.closeCount h + 1 := by
  induction hs generalizing w with
  | nil => cases hm
  | cons a t ih =>
    rw [runCleanup_cons]
    by_cases hah : h = a
    · subst hah
      rw [(runCleanup_preserves_closed t (fileClose h w) h (fileClose_isOpen_self h w)).2]
      exact fileClose_closeCount_open h w hop
    · have h1 : (fileClose a w).isOpen h = true := by
        rw [fileClose_isOpen_other a h w hah]
        exact hop
      have hmt : h ∈ t := by
        rcases List.mem_cons.1 hm with h2 | h2
        · exact absurd h2 hah
        · exact h2
      rw [ih (fileClose a w) hmt h1, fileClose_closeCount_other a h w hah]

/-- Running a cleanup whose handles are all closed changes nothing. -/
theorem runCleanup_noop (hs : List Nat) (w : World)
    (hcl : ∀ h ∈ hs, w.isOpen h = false) : runCleanup hs w = w := by
  induction hs generalizing w with
  | nil => rfl
  | cons a t ih =>
    rw [runCleanup_cons, fileClose_closed_noop a w (hcl a (List.mem_cons_self a t))]
    exact ih w (fun h hm => hcl h (List.mem_cons_of_mem a hm))

/-! ## Helper lemmas about the application loop -/

theorem ApplyLoop_nil (m : RedirectionManager) (failsOn : String → Bool)
    (base bnd : IOBindings) (cfs : List Nat) (w : World) :
    ApplyLoop m failsOn base [] bnd cfs w = ((bnd, some cfs, none), w) := rfl

theorem ApplyLoop_cons (m : RedirectionManager) (failsOn : String → Bool)
    (base : IOBindings) (spec : RedirectionSpec) (rest : List RedirectionSpec)
    (bnd : IOBindings) (cfs : List Nat) (w : World) :
    ApplyLoop m failsOn base (spec :: rest) bnd cfs w =
      match GetHandler m spec.Operator with
      | .error e => ((base, none, some e), runCleanup cfs w)
      | .ok handler =>
        match handler.Apply spec bnd failsOn w with
        | .error e => ((base, none, some e), runCleanup cfs w)
        | .ok (b2, h, w2) => ApplyLoop m failsOn base rest b2 (cfs ++ [h]) w2 := rfl

/-- A successful handler application opens exactly the next fresh handle,
leaves every other handle as it was, and touches no close counter. -/
theorem handlerApply_ok (handler : RedirectionHandler) (spec : RedirectionSpec)
    (b : IOBindings) (failsOn : String → Bool) (w : World) (b2 : IOBindings)
    (h : Nat) (w2 : World)
    (happ : handler.Apply spec b failsOn w = .ok (b2, h, w2)) :
    h = w.nextHandle ∧ w2.nextHandle = w.nextHandle + 1 ∧
    (∀ h2, w2.isOpen h2 = if h2 = w.nextHandle then true else w.isOpen h2) ∧
    w2.closeCount = w.closeCount := by
  by_cases hf : failsOn spec.Target = true
  · exfalso
    cases handler <;> simp [RedirectionHandler.Apply, OpenWrite, hf] at happ
  · simp only [Bool.not_eq_true] at hf
    cases handler <;>
    · simp only [RedirectionHandler.Apply, OpenWrite, hf, Bool.false_eq_true, if_false,
        Except.ok.injEq, Prod.mk.injEq] at happ
      obtain ⟨-, hh, hw2⟩ := happ
      subst hh
      subst hw2
      exact ⟨rfl, rfl, fun h2 => rfl, rfl⟩

/-- On an error, the application loop reports the untouched base bindings
with no release action, and every handle it had opened (those in the
carried cleanup list and those allocated during the loop) is closed in the
final world. -/
theorem ApplyLoop_error (m : RedirectionManager) (failsOn : String → Bool)
    (base : IOBindings) :
    ∀ (specs : List RedirectionSpec) (bnd : IOBindings) (cfs : List Nat) (w : World)
      (b' : IOBindings) (c' : Option (List Nat)) (e : String) (w' : World),
      ApplyLoop m failsOn base specs bnd cfs w = ((b', c', some e), w') →
      b' = base ∧ c' = none ∧ w.nextHandle ≤ w'.nextHandle ∧
      (∀ h, h ∈ cfs → w'.isOpen h = false) ∧
      (∀ h, w.nextHandle ≤ h → h < w'.nextHandle → w'.isOpen h = false) := by
  intro specs
  induction specs with
  | nil =>
    intro bnd cfs w b' c' e w' heq
    rw [ApplyLoop_nil] at heq
    simp at heq
  | cons spec rest ih =>
    intro bnd cfs w b' c' e w' heq
    rw [ApplyLoop_cons] at heq
    split at heq
    · simp only [Prod.mk.injEq, Option.some.injEq] at heq
      obtain ⟨⟨hb, hc, -⟩, hw⟩ := heq
      subst hb hc hw
      refine ⟨rfl, rfl, le_of_eq (runCleanup_nextHandle cfs w).symm, ?_, ?_⟩
      · intro h hm
        exact runCleanup_closes_mem cfs w h hm
      · intro h h1 h2
        rw [runCleanup_nextHandle] at h2
        omega
    · split at heq
      · simp only [Prod.mk.injEq, Option.some.injEq] at heq
        obtain ⟨⟨hb, hc, -⟩, hw⟩ := heq
        subst hb hc hw
        refine ⟨rfl, rfl, le_of_eq (runCleanup_nextHandle cfs w).symm, ?_, ?_⟩
        · intro h hm
          exact runCleanup_closes_mem cfs w h hm
        · intro h h1 h2
          rw [runCleanup_nextHandle] at h2
          omega
      · rename_i ha
        obtain ⟨hh0, hn2, -, -⟩ := handlerApply_ok _ spec bnd failsOn w _ _ _ ha
        obtain ⟨hb, hc, hle, hcfs, hrange⟩ := ih _ _ _ _ _ _ _ heq
        refine ⟨hb, hc, by omega, ?_, ?_⟩
        · intro h hm
          exact hcfs h (List.mem_append_left _ hm)
        · intro h h1 h2
          by_cases hh : h = w.nextHandle
          · subst hh
            exact hcfs _ (by simp [← hh0])
          · exact hrange h (by omega) h2

/-- On success, the application loop returns the handles it opened in
order after the carried ones: all fresh, all still open, with close
counters untouched and previously allocated handles unchanged. -/
theorem ApplyLoop_ok (m : RedirectionManager) (failsOn : String → Bool)
    (base : IOBindings) :
    ∀ (specs : List RedirectionSpec) (bnd : IOBindings) (cfs : List Nat) (w : World)
      (b' : IOBindings) (c' : Option (List Nat)) (w' : World),
      ApplyLoop m failsOn base specs bnd cfs w = ((b', c', none), w') →
      w.nextHandle ≤ w'.nextHandle ∧
      w'.closeCount = w.closeCount ∧
      (∀ h, h < w.nextHandle → w'.isOpen h = w.isOpen h) ∧
      (∃ fresh, c' = some (cfs ++ fresh) ∧
        ∀ h ∈ fresh, w.nextHandle ≤ h ∧ h < w'.nextHandle ∧ w'.isOpen h = true) := by
  intro specs
  induction specs with
  | nil =>
    intro bnd cfs w b' c' w' heq
    rw [ApplyLoop_nil] at heq
    simp only [Prod.mk.injEq] at heq
    obtain ⟨⟨-, hc, -⟩, hw⟩ := heq
    subst hw
    refine ⟨le_refl _, rfl, fun h _ => rfl, [], by simp [← hc], by simp⟩
  | cons spec rest ih =>
    intro bnd cfs w b' c' w' heq
    rw [ApplyLoop_cons] at heq
    split at heq
    · simp at heq
    · split at heq
      · simp at heq
      · rename_i ha
        obtain ⟨hh0, hn2, hopen2, hcc2⟩ := handlerApply_ok _ spec bnd failsOn w _ _ _ ha
        obtain ⟨hle, hcc, hlow, fresh, hc, hfresh⟩ := ih _ _ _ _ _ _ heq
        rw [hh0] at hc
        refine ⟨by omega, hcc.trans hcc2, ?_, w.nextHandle :: fresh, by simpa using hc, ?_⟩
        · intro h hlt
          rw [hlow h (by omega), hopen2 h]
          have hne : ¬(h = w.nextHandle) := by omega
          simp [hne]
        · intro h hm
          rcases List.mem_cons.1 hm with h1 | h1
          · subst h1
            refine ⟨le_refl _, by omega, ?_⟩
            rw [hlow w.nextHandle (by omega), hopen2 w.nextHandle]
            simp
          · obtain ⟨ha1, ha2, ha3⟩ := hfresh h h1
            exact ⟨by omega, ha2, ha3⟩

/-! ## Claim theorems: atomicity and release of redirections -/

/-- C2: ApplyRedirections is atomic on error.  A validation failure
returns the error with the untouched base bindings, no release action and
an unchanged file system; an open failure mid-sequence returns the error
with the untouched base bindings, no release action, and every handle
opened during the call closed again. -/
theorem applyRedirections_atomic_on_error
    (m : RedirectionManager) (failsOn : String → Bool) (specs : List RedirectionSpec)
    (baseBindings : IOBindings) (w : World) :
    (∀ e, ValidateSpecs m specs = some e →
      ApplyRedirections m failsOn specs baseBindings w = ((baseBindings, none, some e), w)) ∧
    (∀ b' c' e w',
      ApplyRedirections m failsOn specs baseBindings w = ((b', c', some e), w') →
      b' = baseBindings ∧ c' = none ∧
      ∀ h, w.nextHandle ≤ h → h < w'.nextHandle → w'.isOpen h = false) := by
  constructor
  · intro e he
    unfold ApplyRedirections
    rw [he]
  · intro b' c' e w' heq
    unfold ApplyRedirections at heq
    split at heq
    · simp only [Prod.mk.injEq, Option.some.injEq] at heq
      obtain ⟨⟨hb, hc, -⟩, hw⟩ := heq
      subst hb hc hw
      exact ⟨rfl, rfl, fun h h1 h2 => absurd h2 (by omega)⟩
    · obtain ⟨hb, hc, -, -, hrange⟩ :=
        ApplyLoop_error m failsOn baseBindings specs _ [] w b' c' e w' heq
      exact ⟨hb, hc, hrange⟩

/-- Witness for C2: the second of two opens fails, and the handle opened
for the first target is closed again in the final world. -/
theorem applyRedirections_atomic_on_error_witness :
    ((ApplyRedirections NewRedirectionManager (fun t => t == "bad")
        [{ Operator := ">", Target := "good.txt", Index := 0 },
          { Operator := ">", Target := "bad", Index := 2 }]
        { Stdin := .base 0, Stdout := .base 1, Stderr := .base 2 } initialWorld).2).isOpen 0 =
      false := by
  have h := (applyRedirections_atomic_on_error NewRedirectionManager (fun t => t == "bad")
      [{ Operator := ">", Target := "good.txt", Index := 0 },
        { Operator := ">", Target := "bad", Index := 2 }]
      { Stdin := .base 0, Stdout := .base 1, Stderr := .base 2 } initialWorld).2
      { Stdin := .base 0, Stdout := .base 1, Stderr := .base 2 } none "failed to open bad"
      ((ApplyRedirections NewRedirectionManager (fun t => t == "bad")
        [{ Operator := ">", Target := "good.txt", Index := 0 },
          { Operator := ">", Target := "bad", Index := 2 }]
        { Stdin := .base 0, Stdout := .base 1, Stderr := .base 2 } initialWorld).2) rfl
  exact h.2.2 0 (by decide) (by decide)

/-- C3: the release action of a successful ApplyRedirections closes every
opened handle exactly once and a second invocation neither fails nor
releases any handle again (it is the identity on the file system). -/
theorem release_action_idempotent
    (m : RedirectionManager) (failsOn : String → Bool) (specs : List RedirectionSpec)
    (baseBindings : IOBindings) (w : World) (b' : IOBindings) (hs : List Nat) (w' : World)
    (hwf : World.WF w)
    (heq : ApplyRedirections m failsOn specs baseBindings w = ((b', some hs, none), w')) :
    (∀ h ∈ hs, w'.isOpen h = true) ∧
    (∀ h ∈ hs, (runCleanup hs w').isOpen h = false ∧
      (runCleanup hs w').closeCount h = 1) ∧
    runCleanup hs (runCleanup hs w') = runCleanup hs w' := by
  unfold ApplyRedirections at heq
  split at heq
  · simp at heq
  · obtain ⟨hle, hcc, hlow, fresh, hcsome, hfresh⟩ :=
      ApplyLoop_ok m failsOn baseBindings specs _ [] w b' (some hs) w' heq
    have hhs : hs = fresh := by simpa using hcsome
    subst hhs
    refine ⟨fun h hm => (hfresh h hm).2.2, ?_, ?_⟩
    · intro h hm
      refine ⟨runCleanup_closes_mem hs w' h hm, ?_⟩
      rw [runCleanup_closeCount_once hs w' h hm (hfresh h hm).2.2, congrFun hcc h,
        (hwf h (hfresh h hm).1).2]
    · exact runCleanup_noop hs (runCleanup hs w')
        (fun h hm => runCleanup_closes_mem hs w' h hm)

/-- Witness for C3: one redirection opened and released; the handle's
descriptor is closed exactly once. -/
theorem release_action_idempotent_witness :
    (runCleanup [0] ((ApplyRedirections NewRedirectionManager (fun _ => false)
        [{ Operator := ">", Target := "a.txt", Index := 0 }]
        { Stdin := .base 0, Stdout := .base 1, Stderr := .base 2 }
        initialWorld).2)).closeCount 0 = 1 := by
  have h := release_action_idempotent NewRedirectionManager (fun _ => false)
      [{ Operator := ">", Target := "a.txt", Index := 0 }]
      { Stdin := .base 0, Stdout := .base 1, Stderr := .base 2 } initialWorld
      { Stdin := .base 0, Stdout := .file 0, Stderr := .base 2 } [0]
      ((ApplyRedirections NewRedirectionManager (fun _ => false)
        [{ Operator := ">", Target := "a.txt", Index := 0 }]
        { Stdin := .base 0, Stdout := .base 1, Stderr := .base 2 }
        initialWorld).2)
      (fun h _ => ⟨rfl, rfl⟩) rfl
  exact (h.2.1 0 (by decide)).2

/-- One application-loop step for a stdout-overwrite redirection whose
target opens successfully. -/
theorem stdout_apply_step (failsOn : String → Bool) (base bnd : IOBindings)
    (t : String) (idx : Nat) (rest : List RedirectionSpec) (cfs : List Nat) (w : World)
    (hf : failsOn t = false) :
    ApplyLoop NewRedirectionManager failsOn base
        ({ Operator := ">", Target := t, Index := idx } :: rest) bnd cfs w =
      ApplyLoop NewRedirectionManager failsOn base rest
        { bnd with Stdout := .file w.nextHandle } (cfs ++ [w.nextHandle])
        { nextHandle := w.nextHandle + 1,
          isOpen := fun h => if h = w.nextHandle then true else w.isOpen h,
          closeCount := w.closeCount } := by
  rw [ApplyLoop_cons]
  have hga : GetHandler NewRedirectionManager
      ({ Operator := ">", Target := t, Index := idx } : RedirectionSpec).Operator =
      .ok (.stdoutHandler true) := rfl
  simp only [hga, RedirectionHandler.Apply, OpenWrite, hf, Bool.false_eq_true, if_false]

/-- C7: two stdout redirections in one command are applied strictly in
order against a private copy of the base bindings: the final output slot
holds the handle opened for the second target; the first target's handle
is NOT closed early — both handles are still open when ApplyRedirections
returns — and after the aggregate release action runs both have been
closed exactly once. -/
theorem later_stdout_redirection_wins
    (failsOn : String → Bool) (baseBindings : IOBindings) (w : World)
    (t1 t2 : String) (i j : Nat) (hwf : World.WF w)
    (hf1 : failsOn t1 = false) (hf2 : failsOn t2 = false)
    (ht1 : t1 ≠ "") (ht2 : t2 ≠ "") :
    ∃ w',
      ApplyRedirections NewRedirectionManager failsOn
          [{ Operator := ">", Target := t1, Index := i },
            { Operator := ">", Target := t2, Index := j }] baseBindings w =
        (({ Stdin := baseBindings.Stdin, Stdout := .file (w.nextHandle + 1),
            Stderr := baseBindings.Stderr },
          some [w.nextHandle, w.nextHandle + 1], none), w') ∧
      w'.isOpen w.nextHandle = true ∧
      w'.isOpen (w.nextHandle + 1) = true ∧
      (runCleanup [w.nextHandle, w.nextHandle + 1] w').isOpen w.nextHandle = false ∧
      (runCleanup [w.nextHandle, w.nextHandle + 1] w').isOpen (w.nextHandle + 1) = false ∧
      (runCleanup [w.nextHandle, w.nextHandle + 1] w').closeCount w.nextHandle = 1 ∧
      (runCleanup [w.nextHandle, w.nextHandle + 1] w').closeCount (w.nextHandle + 1) = 1 := by
  have hv : ValidateSpecs NewRedirectionManager
      [{ Operator := ">", Target := t1, Index := i },
        { Operator := ">", Target := t2, Index := j }] = none := by
    simp [ValidateSpecs, RedirectionHandler.Validate, ht1, ht2,
      show GetHandler NewRedirectionManager ">" = .ok (.stdoutHandler true) from rfl]
  have hne : w.nextHandle ≠ w.nextHandle + 1 := by omega
  refine ⟨{ nextHandle := w.nextHandle + 1 + 1,
            isOpen := fun h => if h = w.nextHandle + 1 then true
              else if h = w.nextHandle then true else w.isOpen h,
            closeCount := w.closeCount }, ?_, ?_, ?_, ?_, ?_, ?_, ?_⟩
  · simp only [ApplyRedirections, hv]
    rw [stdout_apply_step failsOn baseBindings _ t1 i _ [] w hf1]
    rw [stdout_apply_step failsOn baseBindings _ t2 j _ _ _ hf2]
    rw [ApplyLoop_nil]
    rfl
  · show (if w.nextHandle = w.nextHandle + 1 then true
      else if w.nextHandle = w.nextHandle then true else w.isOpen w.nextHandle) = true
    simp [hne]
  · show (if w.nextHandle + 1 = w.nextHandle + 1 then true
      else if w.nextHandle + 1 = w.nextHandle then true
      else w.isOpen (w.nextHandle + 1)) = true
    simp
  · rw [runCleanup_cons, runCleanup_cons, runCleanup_nil,
      fileClose_isOpen_other (w.nextHandle + 1) w.nextHandle _ hne]
    exact fileClose_isOpen_self w.nextHandle _
  · rw [runCleanup_cons, runCleanup_cons, runCleanup_nil]
    exact fileClose_isOpen_self (w.nextHandle + 1) _
  · rw [runCleanup_cons, runCleanup_cons, runCleanup_nil,
      fileClose_closeCount_other (w.nextHandle + 1) w.nextHandle _ hne,
      fileClose_closeCount_open w.nextHandle _ (by simp [hne])]
    show w.closeCount w.nextHandle + 1 = 1
    rw [(hwf w.nextHandle (le_refl _)).2]
  · have hopen1 : (fileClose w.nextHandle
        { nextHandle := w.nextHandle + 1 + 1,
          isOpen := fun h => if h = w.nextHandle + 1 then true
            else if h = w.nextHandle then true else w.isOpen h,
          closeCount := w.closeCount }).isOpen (w.nextHandle + 1) = true := by
      rw [fileClose_isOpen_other w.nextHandle (w.nextHandle + 1) _ (by omega)]
      simp
    rw [runCleanup_cons, runCleanup_cons, runCleanup_nil,
      fileClose_closeCount_open (w.nextHandle + 1) _ hopen1,
      fileClose_closeCount_other w.nextHandle (w.nextHandle + 1) _ (by omega)]
    show w.closeCount (w.nextHandle + 1) + 1 = 1
    rw [(hwf (w.nextHandle + 1) (by omega)).2]

/-- Witness for C7: two concrete stdout redirections from the empty
world. -/
theorem later_stdout_redirection_wins_witness :
    ∃ w',
      ApplyRedirections NewRedirectionManager (fun _ => false)
          [{ Operator := ">", Target := "a.txt", Index := 0 },
            { Operator := ">", Target := "b.txt", Index := 2 }]
          { Stdin := .base 0, Stdout := .base 1, Stderr := .base 2 } initialWorld =
        (({ Stdin := Stream.base 0, Stdout := .file (initialWorld.nextHandle + 1),
            Stderr := Stream.base 2 },
          some [initialWorld.nextHandle, initialWorld.nextHandle + 1], none), w') ∧
      w'.isOpen initialWorld.nextHandle = true ∧
      w'.isOpen (initialWorld.nextHandle + 1) = true ∧
      (runCleanup [initialWorld.nextHandle, initialWorld.nextHandle + 1] w').isOpen
        initialWorld.nextHandle = false ∧
      (runCleanup [initialWorld.nextHandle, initialWorld.nextHandle + 1] w').isOpen
        (initialWorld.nextHandle + 1) = false ∧
      (runCleanup [initialWorld.nextHandle, initialWorld.nextHandle + 1] w').closeCount
        initialWorld.nextHandle = 1 ∧
      (runCleanup [initialWorld.nextHandle, initialWorld.nextHandle + 1] w').closeCount
        (initialWorld.nextHandle + 1) = 1 :=
  later_stdout_redirection_wins (fun _ => false)
    { Stdin := .base 0, Stdout := .base 1, Stderr := .base 2 } initialWorld
    "a.txt" "b.txt" 0 2 (fun h _ => ⟨rfl, rfl⟩) rfl rfl (by decide) (by decide)

end ShellGo
